import Mathlib

/-!
# Verification of the CloudflareSSE room coordinator (`src/worker.js`)

Shallow embedding of the `SseDurableObject` coordinator from `src/worker.js`:
the replay buffer (`lastMessages`), the registered controller set
(`controllers`), per-controller bounded queues (`_queue` / `_max`), the
heartbeat interval (`updateInterval`), and the request handlers
`handleBroadcast`, `handleSseConnection` (its `start` callback = Subscribe,
its `cancel` callback = Unsubscribe), `enqueueToController`, `tryDrainQueue`,
`startPeriodicUpdate`, `stopPeriodicUpdate`.

Platform pieces are modelled at their contract boundary:
* `JSON.parse` is an abstract parameter `parse : String → Except String Json`
  (failure = the thrown `SyntaxError`, whose `.message` the code surfaces);
* `new Date().toISOString()` is an abstract parameter `now : String`;
* the stream controller's `enqueue` (the client sink) is modelled by a write
  budget: `none` = every write succeeds, `some k` = the next `k` writes
  succeed and the following write throws (as a closed/cancelled controller
  does);
* Durable Object storage input gates serialize request delivery around the
  constructor's `storage.get`, so the initial load is modelled as completed
  (or rejected) before any operation runs; `waitUntil(storage.put ...)` is
  recorded in `persistQueue`;
* byte chunks produced by `TextEncoder.encode` are modelled as tagged values
  (`Chunk`), keeping which event each chunk encodes.

Since the module is ES-module (strict-mode) JavaScript, assigning
`message.timestamp` on a primitive throws a `TypeError`, and reading
`.timestamp` on `null` throws; both are modelled in `injectTimestamp`.
-/

/-- JSON values as produced by `JSON.parse` (numbers restricted to integers;
no claim depends on non-integral numerics). Objects are key/value lists with
unique keys, in insertion order, as JS objects enumerate them. -/
inductive Json where
  | null : Json
  | bool : Bool → Json
  | num : Int → Json
  | str : String → Json
  | arr : List Json → Json
  | obj : List (String × Json) → Json

mutual

def Json.decEq : (a b : Json) → Decidable (a = b)
  | .null, .null => isTrue rfl
  | .bool x, .bool y =>
      if h : x = y then isTrue (h ▸ rfl)
      else isFalse (fun hc => h (Json.bool.inj hc))
  | .num x, .num y =>
      if h : x = y then isTrue (h ▸ rfl)
      else isFalse (fun hc => h (Json.num.inj hc))
  | .str x, .str y =>
      if h : x = y then isTrue (h ▸ rfl)
      else isFalse (fun hc => h (Json.str.inj hc))
  | .arr xs, .arr ys =>
      match Json.decEqList xs ys with
      | isTrue h => isTrue (h ▸ rfl)
      | isFalse h => isFalse (fun hc => h (Json.arr.inj hc))
  | .obj xs, .obj ys =>
      match Json.decEqFields xs ys with
      | isTrue h => isTrue (h ▸ rfl)
      | isFalse h => isFalse (fun hc => h (Json.obj.inj hc))
  | .null, .bool _ | .null, .num _ | .null, .str _ | .null, .arr _
  | .null, .obj _ | .bool _, .null | .bool _, .num _ | .bool _, .str _
  | .bool _, .arr _ | .bool _, .obj _ | .num _, .null | .num _, .bool _
  | .num _, .str _ | .num _, .arr _ | .num _, .obj _ | .str _, .null
  | .str _, .bool _ | .str _, .num _ | .str _, .arr _ | .str _, .obj _
  | .arr _, .null | .arr _, .bool _ | .arr _, .num _ | .arr _, .str _
  | .arr _, .obj _ | .obj _, .null | .obj _, .bool _ | .obj _, .num _
  | .obj _, .str _ | .obj _, .arr _ => isFalse (fun hc => Json.noConfusion hc)

def Json.decEqList : (a b : List Json) → Decidable (a = b)
  | [], [] => isTrue rfl
  | [], _ :: _ => isFalse (fun hc => List.noConfusion hc)
  | _ :: _, [] => isFalse (fun hc => List.noConfusion hc)
  | x :: xs, y :: ys =>
      match Json.decEq x y, Json.decEqList xs ys with
      | isTrue h1, isTrue h2 => isTrue (h1 ▸ h2 ▸ rfl)
      | isFalse h1, _ => isFalse (fun hc => h1 (List.cons.inj hc).1)
      | _, isFalse h2 => isFalse (fun hc => h2 (List.cons.inj hc).2)

def Json.decEqFields : (a b : List (String × Json)) → Decidable (a = b)
  | [], [] => isTrue rfl
  | [], _ :: _ => isFalse (fun hc => List.noConfusion hc)
  | _ :: _, [] => isFalse (fun hc => List.noConfusion hc)
  | (k1, v1) :: xs, (k2, v2) :: ys =>
      if h0 : k1 = k2 then
        match Json.decEq v1 v2, Json.decEqFields xs ys with
        | isTrue h1, isTrue h2 => isTrue (h0 ▸ h1 ▸ h2 ▸ rfl)
        | isFalse h1, _ =>
            isFalse (fun hc => h1 (congrArg Prod.snd (List.cons.inj hc).1))
        | _, isFalse h2 => isFalse (fun hc => h2 (List.cons.inj hc).2)
      else isFalse (fun hc => h0 (congrArg Prod.fst (List.cons.inj hc).1))

end

instance : DecidableEq Json := Json.decEq

/-- One chunk handed to `enqueueToController`, tagged by which encoded event
it is: the connection confirmation, a `event: broadcast` block for a message,
or a periodic `event: update` block. -/
inductive Chunk where
  | connected : Chunk
  | broadcast : Json → Chunk
  | update : String → String → Chunk
deriving DecidableEq

/-- `MAX_MESSAGES` from `worker.js`. -/
def MAX_MESSAGES : Nat := 10

/-- `MAX_CLIENT_QUEUE` from `worker.js`. -/
def MAX_CLIENT_QUEUE : Nat := 100

/-- The push-then-shift ring-buffer step used verbatim at two places in
`worker.js`: `lastMessages.push(message); if (length > MAX_MESSAGES) shift()`
in `handleBroadcast`, and `_queue.push(chunk); if (length > _max) shift()` in
`enqueueToController` (`shift` removes the oldest element). -/
def pushBounded (cap : Nat) (l : List α) (x : α) : List α :=
  let l' := l ++ [x]
  if cap < l'.length then l'.tail else l'

/-- The last `n` elements of a list, in order. -/
def lastN (n : Nat) (l : List α) : List α := l.drop (l.length - n)

example : pushBounded 2 [1, 2] 3 = [2, 3] := by decide
example : lastN 2 [1, 2, 3] = [2, 3] := by decide

/-- One stream controller as `worker.js` decorates it in the `start`
callback: `_queue` (pending chunk ring buffer), the chunks the underlying
sink has accepted so far (`controller.enqueue` calls that succeeded), the
sink's write budget (`none` = every write succeeds; `some k` = `k` more
writes succeed, then the next `controller.enqueue` throws), and whether the
stream's `start` promise rejected (load failure surfacing, see
`subscribe`). -/
structure Channel where
  queue : List Chunk
  delivered : List Chunk
  budget : Option Nat
  errored : Bool
deriving DecidableEq

/-- The mutable state of one `SseDurableObject` (= one room coordinator):
`controllers` is the JS `Set` of registered controllers in insertion order
(identified by creation index), `channels` records every controller object
ever created, `updateInterval` is the handle stored by `setInterval`,
`liveTimers` tracks every interval that has been created and not cleared
(to observe orphaned timers), `lastMessages` is the replay buffer, and
`persistQueue` records the `state.waitUntil(storage.put(...))` payloads. -/
structure CoState where
  controllers : List Nat
  channels : List (Nat × Channel)
  updateInterval : Option Nat
  liveTimers : List Nat
  nextTimer : Nat
  nextChan : Nat
  lastMessages : List Json
  loadFailed : Bool
  persistQueue : List (List Json)
deriving DecidableEq

/-- `constructor(state, env)`: `lastMessages = []`, then
`this.ready = state.storage.get('lastMessages').then(m => { if (m) ... })`.
Input gates hold request delivery until the storage read settles, so the
settled outcome is folded into the initial state: a fulfilled read of a
present value installs it, a fulfilled read of a missing value keeps `[]`,
and a rejected read keeps `[]` but leaves `this.ready` a rejected promise
(`loadFailed`). -/
def initState (load : Except String (Option (List Json))) : CoState :=
  { controllers := []
    channels := []
    updateInterval := none
    liveTimers := []
    nextTimer := 0
    nextChan := 0
    lastMessages := match load with
      | .ok (some ms) => ms
      | .ok none => []
      | .error _ => []
    loadFailed := match load with
      | .error _ => true
      | .ok _ => false
    persistQueue := [] }

/-- `Set.prototype.add`: append if absent (controller objects are always
fresh, so in every reachable state this appends). -/
def addSet (l : List Nat) (x : Nat) : List Nat :=
  if x ∈ l then l else l ++ [x]

/-- Look a controller up among the created channel objects. -/
def findCh : List (Nat × Channel) → Nat → Option Channel
  | [], _ => none
  | p :: rest, id => if p.1 = id then some p.2 else findCh rest id

/-- A controller id that was never created (never happens in a reachable
state; `getCh` needs a total default). -/
def defaultChannel : Channel :=
  { queue := [], delivered := [], budget := none, errored := false }

/-- The channel object behind a controller id. -/
def getCh (st : CoState) (id : Nat) : Channel :=
  (findCh st.channels id).getD defaultChannel

/-- Mutate the fields of one controller object in place. -/
def chanUpdate (st : CoState) (id : Nat) (f : Channel → Channel) : CoState :=
  { st with channels := st.channels.map fun p => if p.1 = id then (p.1, f p.2) else p }

/-- The `while` loop of `tryDrainQueue`: `controller.enqueue(_queue.shift())`
until the queue is empty or a write throws. Returns the chunks the sink
accepted, the remaining queue (`shift` removes the head before the failing
write, so the failing chunk is lost), the remaining budget, and whether a
write threw. -/
def drainChunks : Option Nat → List Chunk → List Chunk × List Chunk × Option Nat × Bool
  | b, [] => ([], [], b, false)
  | none, c :: rest =>
      let (d, q, b, f) := drainChunks none rest
      (c :: d, q, b, f)
  | some 0, _ :: rest => ([], rest, some 0, true)
  | some (k + 1), c :: rest =>
      let (d, q, b, f) := drainChunks (some k) rest
      (c :: d, q, b, f)

/-- `tryDrainQueue(controller)`: drain the pending queue into the sink; on a
thrown write, `catch` removes the controller from `this.controllers` (and
does nothing else — in particular it does not touch `updateInterval`).
`controller.enqueue` on an errored stream throws (the Streams standard: the
stream errored when the `start` promise rejected), so an errored channel
drains against an exhausted budget: its first write attempt fails. The
budget written back then records that every later write fails too. -/
def tryDrainQueue (st : CoState) (id : Nat) : CoState :=
  let ch := getCh st id
  let r := drainChunks (if ch.errored then some 0 else ch.budget) ch.queue
  let st' := chanUpdate st id fun c =>
    { c with queue := r.2.1, delivered := c.delivered ++ r.1, budget := r.2.2.1 }
  if r.2.2.2 then { st' with controllers := st'.controllers.erase id } else st'

/-- `enqueueToController(controller, chunk)`: no-op when the controller is
not in `this.controllers`; otherwise push onto `_queue`, shift if the length
exceeds `_max` (= `MAX_CLIENT_QUEUE`), then `tryDrainQueue`. -/
def enqueueToController (st : CoState) (id : Nat) (chunk : Chunk) : CoState :=
  if id ∈ st.controllers then
    tryDrainQueue
      (chanUpdate st id fun c =>
        { c with queue := pushBounded MAX_CLIENT_QUEUE c.queue chunk }) id
  else st

/-- `startPeriodicUpdate()`: unconditionally `this.updateInterval =
setInterval(...)` — a fresh interval is created and the stored handle is
overwritten, whatever it held. -/
def startPeriodicUpdate (st : CoState) : CoState :=
  { st with
    updateInterval := some st.nextTimer
    liveTimers := st.nextTimer :: st.liveTimers
    nextTimer := st.nextTimer + 1 }

/-- `stopPeriodicUpdate()`: `if (this.updateInterval) { clearInterval(...);
this.updateInterval = null; }`. -/
def stopPeriodicUpdate (st : CoState) : CoState :=
  match st.updateInterval with
  | some t => { st with liveTimers := st.liveTimers.erase t, updateInterval := none }
  | none => st

/-- The `start` callback of `handleSseConnection`'s `ReadableStream`
(= Subscribe): decorate the fresh controller, add it to the set, start the
heartbeat when it is the first member, enqueue the connection confirmation,
then `await this.ready` and replay `lastMessages`. When the load promise
was rejected the `await` throws, the `start` promise rejects and the stream
errors (`errored`), skipping the replay loop. -/
def subscribe (st : CoState) (budget : Option Nat) : CoState :=
  let id := st.nextChan
  let st := { st with
    nextChan := id + 1
    channels := st.channels ++
      [(id, { queue := [], delivered := [], budget, errored := false })]
    controllers := addSet st.controllers id }
  let st := if st.controllers.length = 1 then startPeriodicUpdate st else st
  let st := enqueueToController st id Chunk.connected
  if st.loadFailed then chanUpdate st id fun c => { c with errored := true }
  else st.lastMessages.foldl (fun s m => enqueueToController s id (Chunk.broadcast m)) st

/-- JS truthiness of a JSON value (`NaN` does not arise: numbers are
integral in this model). -/
def truthy : Json → Bool
  | .null => false
  | .bool b => b
  | .num n => n != 0
  | .str s => s != ""
  | .arr _ => true
  | .obj _ => true

/-- Property read on a JS object: first (only) binding of the key. -/
def lookupField : List (String × Json) → String → Option Json
  | [], _ => none
  | (k, v) :: rest, key => if k = key then some v else lookupField rest key

/-- Property assignment on a JS object: replace the value in place when the
key exists, append the binding otherwise. -/
def setField : List (String × Json) → String → Json → List (String × Json)
  | [], key, v => [(key, v)]
  | (k, w) :: rest, key, v =>
      if k = key then (k, v) :: rest else (k, w) :: setField rest key v

/-- `if (!message.timestamp) { message.timestamp = new Date().toISOString(); }`
in strict-mode (ES module) JavaScript:
* on an object, a missing or falsy `timestamp` is (re)assigned;
* on an array, `.timestamp` reads `undefined` and the assignment attaches a
  non-index property that `JSON.stringify`, the replay encoding and the
  persisted representation all ignore, so the array is modelled unchanged;
* on `null`, the property read throws a `TypeError`;
* on a boolean/number/string primitive, the read yields `undefined` and the
  strict-mode assignment throws a `TypeError`. -/
def injectTimestamp (now : String) : Json → Except String Json
  | .obj fields =>
      let present := match lookupField fields "timestamp" with
        | some v => truthy v
        | none => false
      if present then .ok (.obj fields)
      else .ok (.obj (setField fields "timestamp" (.str now)))
  | .arr xs => .ok (.arr xs)
  | .null => .error "Cannot read properties of null (reading 'timestamp')"
  | .bool b => .error
      ("Cannot create property 'timestamp' on boolean '"
        ++ (if b then "true" else "false") ++ "'")
  | .num n => .error ("Cannot create property 'timestamp' on number '" ++ toString n ++ "'")
  | .str s => .error ("Cannot create property 'timestamp' on string '" ++ s ++ "'")

/-- Prefix test on character lists. -/
def hasPrefix : List Char → List Char → Bool
  | _, [] => true
  | [], _ :: _ => false
  | c :: cs, p :: ps => c == p && hasPrefix cs ps

/-- Substring occurrence on character lists. -/
def hasSubstr : List Char → List Char → Bool
  | [], pat => pat.isEmpty
  | c :: rest, pat => hasPrefix (c :: rest) pat || hasSubstr rest pat

/-- `String.prototype.includes`. -/
def jsIncludes (s pat : String) : Bool :=
  hasSubstr s.data pat.data

/-- `bodyText.trim() === ''`: true iff the body is all whitespace (the JS
and Lean whitespace classes differ only in exotic code points no claim
touches). -/
def jsTrimEmpty (s : String) : Bool :=
  s.data.all Char.isWhitespace

/-- The part of an HTTP `Response` the coordinator determines: status code
and JSON body (headers are CORS plumbing, out of the modelled core). -/
structure Response where
  status : Nat
  body : Json
deriving DecidableEq

/-- The `catch` branch of `handleBroadcast`:
`{ success: false, error: error.message }` with status 400. -/
def errorResponse (e : String) : Response :=
  { status := 400
    body := .obj [("success", .bool false), ("error", .str e)] }

/-- The success response of `handleBroadcast` in `worker.js`:
`{ success: true, message: 'Broadcast sent successfully' }` with status 200.
The stored message itself is not part of the body. -/
def successResponse : Response :=
  { status := 200
    body := .obj [("success", .bool true), ("message", .str "Broadcast sent successfully")] }

/-- Lines 128–140 of `worker.js` — the state change of a successful
broadcast, after parsing and timestamp injection produced `m`: push onto
`lastMessages` evicting the oldest past `MAX_MESSAGES`, schedule
`storage.put('lastMessages', ...)` via `waitUntil`, then fan the encoded
payload out to every registered controller (JS `Set` iteration order; a
controller that fails mid-fanout only removes itself). -/
def publishParsed (st : CoState) (m : Json) : CoState :=
  let st := { st with lastMessages := pushBounded MAX_MESSAGES st.lastMessages m }
  let st := { st with persistQueue := st.persistQueue ++ [st.lastMessages] }
  st.controllers.foldl (fun s id => enqueueToController s id (Chunk.broadcast m)) st

/-- `handleBroadcast(request, room)`: determine the message (JSON-declared
content type: empty body → `{ message: 'Empty broadcast' }`, otherwise
`JSON.parse`; other content types → `{ message: 'Non-JSON broadcast' }`),
inject the timestamp, and on success run the broadcast state change; any
throw (parse or injection) lands in the `catch` branch, which leaves the
state untouched and returns the error response. -/
def handleBroadcast (parse : String → Except String Json) (now : String)
    (st : CoState) (contentType bodyText : String) : CoState × Response :=
  let parsed : Except String Json :=
    if jsIncludes contentType "application/json" then
      if jsTrimEmpty bodyText then .ok (.obj [("message", .str "Empty broadcast")])
      else parse bodyText
    else .ok (.obj [("message", .str "Non-JSON broadcast")])
  match parsed.bind (injectTimestamp now) with
  | .error e => (st, errorResponse e)
  | .ok m => (publishParsed st m, successResponse)

/-- JSON values that are neither objects nor arrays: the top-level values on
which the timestamp-injection step of `handleBroadcast` throws. -/
def primNonObject : Json → Bool
  | .null | .bool _ | .num _ | .str _ => true
  | .arr _ | .obj _ => false

/-! ## Ring-buffer lemmas -/

theorem lastN_of_length_le {l : List α} (h : l.length ≤ n) : lastN n l = l := by
  simp [lastN, Nat.sub_eq_zero_of_le h]

theorem lastN_cons_of_le {l : List α} (x : α) (h : n ≤ l.length) :
    lastN n (x :: l) = lastN n l := by
  simp only [lastN, List.length_cons]
  rw [show l.length + 1 - n = (l.length - n) + 1 by omega, List.drop_succ_cons]

theorem lastN_length_le (n : Nat) (l : List α) : (lastN n l).length ≤ n := by
  simp [lastN]
  omega

theorem pushBounded_eq_lastN {l : List α} (x : α) (h : l.length ≤ cap) :
    pushBounded cap l x = lastN cap (l ++ [x]) := by
  by_cases hc : cap < l.length + 1
  · have hl : l.length = cap := by omega
    simp only [pushBounded, List.length_append, List.length_cons, List.length_nil,
      if_pos (by simpa using hc)]
    simp only [lastN, List.length_append, List.length_cons, List.length_nil, hl]
    rw [show cap + (0 + 1) - cap = 1 by omega, List.drop_one]
  · have hc' : ¬cap < l.length + (0 + 1) := by omega
    simp only [pushBounded, List.length_append, List.length_cons, List.length_nil,
      if_neg hc']
    rw [lastN_of_length_le (by simp; omega)]

theorem lastN_lastN_append (n : Nat) (a b : List α) :
    lastN n (lastN n a ++ b) = lastN n (a ++ b) := by
  induction a with
  | nil => simp [lastN]
  | cons x a ih =>
    by_cases h : n ≤ a.length
    · rw [lastN_cons_of_le x h, ih, List.cons_append,
        lastN_cons_of_le _ (by simp; omega)]
    · rw [lastN_of_length_le (l := x :: a) (by simp; omega)]

theorem foldl_pushBounded (cap : Nat) (xs : List α) :
    ∀ l : List α, l.length ≤ cap →
      xs.foldl (pushBounded cap) l = lastN cap (l ++ xs) := by
  induction xs with
  | nil => intro l h; simpa using (lastN_of_length_le h).symm
  | cons x xs ih =>
    intro l h
    rw [List.foldl_cons,
      ih _ (by rw [pushBounded_eq_lastN x h]; exact lastN_length_le ..),
      pushBounded_eq_lastN x h, lastN_lastN_append]
    simp

theorem publishParsed_no_controllers {st : CoState} (h : st.controllers = []) (m : Json) :
    publishParsed st m =
      { st with
        lastMessages := pushBounded MAX_MESSAGES st.lastMessages m
        persistQueue := st.persistQueue ++ [pushBounded MAX_MESSAGES st.lastMessages m] } := by
  simp [publishParsed, h]

theorem enqueue_single {st : CoState} {cid : Nat} {d : List Chunk}
    (hc : st.controllers = [cid])
    (hch : st.channels = [(cid, ⟨[], d, none, false⟩)]) (c : Chunk) :
    enqueueToController st cid c =
      { st with channels := [(cid, ⟨[], d ++ [c], none, false⟩)] } := by
  simp [enqueueToController, tryDrainQueue, chanUpdate, getCh, findCh, drainChunks,
    pushBounded, hc, hch, MAX_CLIENT_QUEUE]

theorem foldl_enqueue_single {cid : Nat} (L : List Json) :
    ∀ (st : CoState) (d : List Chunk), st.controllers = [cid] →
      st.channels = [(cid, ⟨[], d, none, false⟩)] →
      L.foldl (fun s m => enqueueToController s cid (Chunk.broadcast m)) st =
        { st with channels := [(cid, ⟨[], d ++ L.map Chunk.broadcast, none, false⟩)] } := by
  induction L with
  | nil =>
    intro st d hc hch
    simp [← hch]
  | cons m L ih =>
    intro st d hc hch
    rw [List.foldl_cons, enqueue_single hc hch]
    rw [ih _ (d ++ [Chunk.broadcast m]) (by simp [hc]) (by simp)]
    simp

theorem foldl_publishParsed_no_controllers (ms : List Json) :
    ∀ st : CoState, st.controllers = [] →
      ms.foldl publishParsed st =
        { st with
          lastMessages := ms.foldl (pushBounded MAX_MESSAGES) st.lastMessages
          persistQueue := (ms.foldl
            (fun p m => (pushBounded MAX_MESSAGES p.1 m,
              p.2 ++ [pushBounded MAX_MESSAGES p.1 m]))
            (st.lastMessages, st.persistQueue)).2 } := by
  induction ms with
  | nil => intro st h; simp
  | cons m ms ih =>
    intro st h
    rw [List.foldl_cons, publishParsed_no_controllers h]
    rw [ih _ (by simp [h])]
    simp

theorem publishParsed_single {st : CoState} {cid : Nat} {d : List Chunk}
    (hc : st.controllers = [cid])
    (hch : st.channels = [(cid, ⟨[], d, none, false⟩)]) (m : Json) :
    publishParsed st m =
      { st with
        lastMessages := pushBounded MAX_MESSAGES st.lastMessages m
        persistQueue := st.persistQueue ++ [pushBounded MAX_MESSAGES st.lastMessages m]
        channels := [(cid, ⟨[], d ++ [Chunk.broadcast m], none, false⟩)] } := by
  unfold publishParsed
  rw [hc]
  simp only [List.foldl_cons, List.foldl_nil]
  exact @enqueue_single
    { st with
      controllers := [cid]
      lastMessages := pushBounded MAX_MESSAGES st.lastMessages m
      persistQueue := st.persistQueue ++ [pushBounded MAX_MESSAGES st.lastMessages m] }
    cid d rfl hch (Chunk.broadcast m)

theorem foldl_publishParsed_single {cid : Nat} (qs : List Json) :
    ∀ (st : CoState) (d : List Chunk), st.controllers = [cid] →
      st.channels = [(cid, ⟨[], d, none, false⟩)] →
      ((qs.foldl publishParsed st).channels
          = [(cid, ⟨[], d ++ qs.map Chunk.broadcast, none, false⟩)]
        ∧ (qs.foldl publishParsed st).controllers = [cid]) := by
  induction qs with
  | nil => intro st d hc hch; exact ⟨by simp [hch], hc⟩
  | cons m qs ih =>
    intro st d hc hch
    rw [List.foldl_cons, publishParsed_single hc hch]
    have := ih { st with
        lastMessages := pushBounded MAX_MESSAGES st.lastMessages m
        persistQueue := st.persistQueue ++ [pushBounded MAX_MESSAGES st.lastMessages m]
        channels := [(cid, ⟨[], d ++ [Chunk.broadcast m], none, false⟩)] }
      (d ++ [Chunk.broadcast m]) hc rfl
    simpa using this

theorem subscribe_empty {st : CoState} (hc : st.controllers = [])
    (hch : st.channels = []) (hl : st.loadFailed = false) :
    subscribe st none =
      { st with
        nextChan := st.nextChan + 1
        channels := [(st.nextChan,
          ⟨[], Chunk.connected :: st.lastMessages.map Chunk.broadcast, none, false⟩)]
        controllers := [st.nextChan]
        updateInterval := some st.nextTimer
        liveTimers := st.nextTimer :: st.liveTimers
        nextTimer := st.nextTimer + 1 } := by
  unfold subscribe
  rw [hch, hc]
  simp only [addSet, List.not_mem_nil, if_false, List.nil_append, List.length_cons,
    List.length_nil, if_pos rfl, startPeriodicUpdate]
  rw [@enqueue_single _ st.nextChan [] rfl rfl]
  simp only [hl, if_neg Bool.false_ne_true]
  rw [foldl_enqueue_single _ _ [Chunk.connected] rfl rfl]
  simp

/-! ## Frame lemmas -/

theorem findCh_map_update (l : List (Nat × Channel)) (id j : Nat) (f : Channel → Channel) :
    findCh (l.map fun p => if p.1 = id then (p.1, f p.2) else p) j
      = if j = id then (findCh l j).map f else findCh l j := by
  induction l with
  | nil => by_cases hj : j = id <;> simp [findCh, hj]
  | cons p l ih =>
    obtain ⟨k, v⟩ := p
    by_cases hk : k = id
    · subst hk
      by_cases hj : k = j
      · subst hj
        simp [findCh, ih]
      · have hj' : ¬j = k := fun hc => hj hc.symm
        simp [findCh, hj, hj', ih]
    · by_cases hj : k = j
      · subst hj
        simp [findCh, hk]
      · have hj' : ¬j = k := fun hc => hj hc.symm
        simp [findCh, hk, hj, ih]

theorem findCh_append_ne (l : List (Nat × Channel)) (id j : Nat) (ch : Channel)
    (h : j ≠ id) : findCh (l ++ [(id, ch)]) j = findCh l j := by
  induction l with
  | nil =>
    have h' : ¬id = j := fun hc => h hc.symm
    simp [findCh, h']
  | cons p l ih =>
    by_cases hj : p.1 = j <;> simp [findCh, hj, ih]

theorem keys_chanUpdate (l : List (Nat × Channel)) (id : Nat) (f : Channel → Channel) :
    (l.map fun p => if p.1 = id then (p.1, f p.2) else p).map Prod.fst
      = l.map Prod.fst := by
  induction l with
  | nil => rfl
  | cons p l ih =>
    by_cases hk : p.1 = id <;> simp [hk, ih]

theorem getCh_chanUpdate_ne (st : CoState) (id j : Nat) (h : j ≠ id)
    (f : Channel → Channel) : getCh (chanUpdate st id f) j = getCh st j := by
  simp [getCh, chanUpdate, findCh_map_update, h]

theorem getCh_chanUpdate_self (st : CoState) (id : Nat) (f : Channel → Channel) :
    getCh (chanUpdate st id f) id = ((findCh st.channels id).map f).getD defaultChannel := by
  simp [getCh, chanUpdate, findCh_map_update]

theorem chanUpdate_comp (st : CoState) (id : Nat) (f g : Channel → Channel) :
    chanUpdate (chanUpdate st id f) id g = chanUpdate st id fun c => g (f c) := by
  simp only [chanUpdate, List.map_map]
  refine congrArg (fun l => { st with channels := l }) ?_
  apply List.map_congr_left
  intro p _
  by_cases hp : p.1 = id <;> simp [Function.comp, hp]

theorem tryDrain_frame (st : CoState) (id : Nat) :
    (tryDrainQueue st id).updateInterval = st.updateInterval
    ∧ (tryDrainQueue st id).liveTimers = st.liveTimers
    ∧ (tryDrainQueue st id).nextTimer = st.nextTimer
    ∧ (tryDrainQueue st id).nextChan = st.nextChan
    ∧ (tryDrainQueue st id).lastMessages = st.lastMessages
    ∧ (tryDrainQueue st id).loadFailed = st.loadFailed
    ∧ (tryDrainQueue st id).persistQueue = st.persistQueue
    ∧ (tryDrainQueue st id).channels.map Prod.fst = st.channels.map Prod.fst := by
  unfold tryDrainQueue chanUpdate
  simp only []
  split <;> split <;> simp [keys_chanUpdate] <;> intro a b _ <;>
    by_cases ha : a = id <;> simp [ha]

theorem getCh_set_controllers (st : CoState) (X : List Nat) (j : Nat) :
    getCh { st with controllers := X } j = getCh st j := rfl

theorem getCh_tryDrain_ne (st : CoState) (id j : Nat) (h : j ≠ id) :
    getCh (tryDrainQueue st id) j = getCh st j := by
  unfold tryDrainQueue
  simp only []
  split <;> split <;>
    first
      | exact (getCh_set_controllers _ _ j).trans (getCh_chanUpdate_ne st id j h _)
      | exact getCh_chanUpdate_ne st id j h _

theorem enqueue_frame (st : CoState) (id : Nat) (c : Chunk) :
    (enqueueToController st id c).updateInterval = st.updateInterval
    ∧ (enqueueToController st id c).liveTimers = st.liveTimers
    ∧ (enqueueToController st id c).nextTimer = st.nextTimer
    ∧ (enqueueToController st id c).nextChan = st.nextChan
    ∧ (enqueueToController st id c).lastMessages = st.lastMessages
    ∧ (enqueueToController st id c).loadFailed = st.loadFailed
    ∧ (enqueueToController st id c).persistQueue = st.persistQueue
    ∧ (enqueueToController st id c).channels.map Prod.fst = st.channels.map Prod.fst := by
  unfold enqueueToController
  split
  · have h1 := tryDrain_frame
      (chanUpdate st id fun ch =>
        { ch with queue := pushBounded MAX_CLIENT_QUEUE ch.queue c }) id
    exact ⟨h1.1, h1.2.1, h1.2.2.1, h1.2.2.2.1, h1.2.2.2.2.1, h1.2.2.2.2.2.1,
      h1.2.2.2.2.2.2.1,
      h1.2.2.2.2.2.2.2.trans (keys_chanUpdate st.channels id fun ch =>
        { ch with queue := pushBounded MAX_CLIENT_QUEUE ch.queue c })⟩
  · simp

theorem getCh_enqueue_ne (st : CoState) (id j : Nat) (h : j ≠ id) (c : Chunk) :
    getCh (enqueueToController st id c) j = getCh st j := by
  unfold enqueueToController
  split
  · rw [getCh_tryDrain_ne _ _ _ h, getCh_chanUpdate_ne _ _ _ h]
  · rfl

theorem getCh_foldl_enqueue_ne (L : List Json) (id j : Nat) (h : j ≠ id) :
    ∀ st : CoState,
      getCh (L.foldl (fun s m => enqueueToController s id (Chunk.broadcast m)) st) j
        = getCh st j := by
  induction L with
  | nil => intro st; rfl
  | cons m L ih => intro st; rw [List.foldl_cons, ih, getCh_enqueue_ne _ _ _ h]

/-! ## Reliable-sink preservation lemmas -/

theorem getCh_budget_chanUpdate_pres (st : CoState) (id : Nat) (f : Channel → Channel)
    (hf : ∀ c, (f c).budget = c.budget) :
    ∀ j, (getCh (chanUpdate st id f) j).budget = (getCh st j).budget := by
  intro j
  by_cases hj : j = id
  · subst hj
    rw [getCh_chanUpdate_self]
    cases hfc : findCh st.channels j <;> simp [getCh, hfc, hf]
  · rw [getCh_chanUpdate_ne _ _ _ hj]

theorem getCh_start (s : CoState) (j : Nat) :
    getCh (startPeriodicUpdate s) j = getCh s j := rfl

theorem sub_tail_getCh_ne (s : CoState) (id j : Nat) (h : j ≠ id) (res : CoState)
    (hres : res =
      if (enqueueToController s id Chunk.connected).loadFailed then
        chanUpdate (enqueueToController s id Chunk.connected) id
          fun c => { c with errored := true }
      else (enqueueToController s id Chunk.connected).lastMessages.foldl
        (fun s' m => enqueueToController s' id (Chunk.broadcast m))
        (enqueueToController s id Chunk.connected)) :
    getCh res j = getCh s j := by
  subst hres
  rw [(enqueue_frame s id Chunk.connected).2.2.2.2.2.1]
  by_cases hlf : s.loadFailed = true
  · rw [if_pos hlf, getCh_chanUpdate_ne _ _ _ h, getCh_enqueue_ne _ _ _ h]
  · rw [if_neg hlf, getCh_foldl_enqueue_ne _ _ _ h, getCh_enqueue_ne _ _ _ h]

theorem getCh_subscribe_ne (st : CoState) (b : Option Nat) (j : Nat)
    (h : j ≠ st.nextChan) : getCh (subscribe st b) j = getCh st j := by
  unfold subscribe
  simp only []
  by_cases h1 : (addSet st.controllers st.nextChan).length = 1
  · simp only [h1, if_true]
    rw [sub_tail_getCh_ne _ st.nextChan j h _ rfl, getCh_start]
    simp [getCh, findCh_append_ne _ _ _ _ h]
  · simp only [h1, if_false]
    rw [sub_tail_getCh_ne _ st.nextChan j h _ rfl]
    simp [getCh, findCh_append_ne _ _ _ _ h]

/-! ## Claim theorems -/

/-- C4: for every sequence of successful Publish calls on a room, the
ReplayBuffer (`lastMessages`) never exceeds length `MAX_MESSAGES = 10` and,
after each Publish, equals the most recent `min(n, 10)` stored messages in
arrival order (insert-at-end, evict-oldest FIFO): starting from a fresh
coordinator, after publishing `ms` the buffer is exactly `lastN 10 ms`. -/
theorem c4_replay_buffer_bounded_fifo (ms : List Json) :
    (ms.foldl publishParsed (initState (Except.ok none))).lastMessages
        = lastN MAX_MESSAGES ms
    ∧ (ms.foldl publishParsed (initState (Except.ok none))).lastMessages.length
        ≤ MAX_MESSAGES := by
  have h := foldl_publishParsed_no_controllers ms (initState (Except.ok none)) rfl
  have hl : (ms.foldl publishParsed (initState (Except.ok none))).lastMessages
      = lastN MAX_MESSAGES ms := by
    rw [h]
    have h2 := foldl_pushBounded MAX_MESSAGES ms ([] : List Json) (by simp)
    simpa [initState] using h2
  exact ⟨hl, hl ▸ lastN_length_le MAX_MESSAGES ms⟩

/-- C8: the client-queue backpressure mechanism of `enqueueToController`:
(1) enqueueing to a controller that is not in the registered set is a no-op
on the whole state; (2) the ring-buffer step `pushBounded MAX_CLIENT_QUEUE`
(the push-then-shift of `_queue` with `_max = 100`), iterated over any burst
of chunks with no intervening drain, keeps the queue at ≤ 100 chunks and
leaves exactly the 100 most recently enqueued chunks in FIFO order (oldest
dropped, newest kept). -/
theorem c8_client_queue_drop_oldest :
    (∀ (st : CoState) (id : Nat) (c : Chunk),
      id ∉ st.controllers → enqueueToController st id c = st)
    ∧ (∀ (q cs : List Chunk), q.length ≤ MAX_CLIENT_QUEUE →
        cs.foldl (pushBounded MAX_CLIENT_QUEUE) q
            = lastN MAX_CLIENT_QUEUE (q ++ cs)
          ∧ (cs.foldl (pushBounded MAX_CLIENT_QUEUE) q).length ≤ MAX_CLIENT_QUEUE) := by
  constructor
  · intro st id c h
    simp [enqueueToController, h]
  · intro q cs h
    have h1 := foldl_pushBounded MAX_CLIENT_QUEUE cs q h
    exact ⟨h1, h1 ▸ lastN_length_le MAX_CLIENT_QUEUE (q ++ cs)⟩

/-- Witness for C8 at concrete inputs: controller 5 was never registered in a
fresh coordinator, so enqueueing to it changes nothing; and a burst of 150
chunks through the ring-buffer step retains exactly the last 100. -/
theorem c8_client_queue_drop_oldest_witness :
    (5 ∉ (initState (Except.ok none)).controllers
      ∧ enqueueToController (initState (Except.ok none)) 5 Chunk.connected
          = initState (Except.ok none))
    ∧ (([] : List Chunk).length ≤ MAX_CLIENT_QUEUE
      ∧ (List.replicate 150 Chunk.connected).foldl (pushBounded MAX_CLIENT_QUEUE) []
          = lastN MAX_CLIENT_QUEUE ([] ++ List.replicate 150 Chunk.connected)) :=
  ⟨⟨by decide, c8_client_queue_drop_oldest.1 (initState (Except.ok none)) 5
      Chunk.connected (by decide)⟩,
    ⟨by decide, (c8_client_queue_drop_oldest.2 [] (List.replicate 150 Chunk.connected)
      (by decide)).1⟩⟩

/-- C2: a Publish whose content type declares JSON and whose non-empty body
fails to parse returns the 400 failure response carrying the parse error
message, and the coordinator state is completely unchanged: nothing is
appended to `lastMessages`, no persistence write is scheduled, and no
client queue is touched (no fan-out). -/
theorem c2_malformed_json_rejected (parse : String → Except String Json)
    (now : String) (st : CoState) (contentType bodyText e : String)
    (hct : jsIncludes contentType "application/json" = true)
    (hne : jsTrimEmpty bodyText = false)
    (hp : parse bodyText = Except.error e) :
    handleBroadcast parse now st contentType bodyText = (st, errorResponse e) := by
  simp [handleBroadcast, hct, hne, hp, Except.bind]

/-- Witness for C2: a concrete malformed-JSON publish (`JSON.parse` throws)
on a fresh coordinator returns the error response and the identical state. -/
theorem c2_malformed_json_rejected_witness :
    (jsIncludes "application/json" "application/json" = true
      ∧ jsTrimEmpty "\x7bbad json" = false
      ∧ (fun _ : String => (Except.error "Unexpected token b in JSON at position 1"
          : Except String Json)) "\x7bbad json"
        = Except.error "Unexpected token b in JSON at position 1")
    ∧ handleBroadcast
        (fun _ => Except.error "Unexpected token b in JSON at position 1")
        "2026-01-01T00:00:00.000Z" (initState (Except.ok none))
        "application/json" "\x7bbad json"
      = (initState (Except.ok none),
          errorResponse "Unexpected token b in JSON at position 1") :=
  ⟨⟨by decide, by decide, rfl⟩,
    c2_malformed_json_rejected _ _ _ _ _ _ (by decide) (by decide) rfl⟩

/-- C5 counterexample: on `worker.js` the claim "the success result contains
the stored Message" is false. Publishing `{"a": 1}` stores the
timestamp-injected message in `lastMessages`, but the 200 response body is
the fixed object `{success: true, message: "Broadcast sent successfully"}`,
neither of whose field values is the stored message. -/
theorem c5_counterexample :
    (handleBroadcast (fun _ => Except.ok (Json.obj [("a", Json.num 1)]))
        "2026-01-01T00:00:00.000Z" (initState (Except.ok none))
        "application/json" "x").1.lastMessages
      = [Json.obj [("a", Json.num 1),
          ("timestamp", Json.str "2026-01-01T00:00:00.000Z")]]
    ∧ (handleBroadcast (fun _ => Except.ok (Json.obj [("a", Json.num 1)]))
        "2026-01-01T00:00:00.000Z" (initState (Except.ok none))
        "application/json" "x").2.body
      = Json.obj [("success", Json.bool true),
          ("message", Json.str "Broadcast sent successfully")]
    ∧ Json.bool true
      ≠ Json.obj [("a", Json.num 1),
          ("timestamp", Json.str "2026-01-01T00:00:00.000Z")]
    ∧ Json.str "Broadcast sent successfully"
      ≠ Json.obj [("a", Json.num 1),
          ("timestamp", Json.str "2026-01-01T00:00:00.000Z")] :=
  ⟨by decide, by decide, by decide, by decide⟩

/-- C5 (amended): every successful Publish appends the parsed,
timestamp-injected message to the coordinator state via the broadcast path
and returns status 200 with the fixed body
`{success: true, message: "Broadcast sent successfully"}`; the stored
Message itself is not part of the response. -/
theorem c5_success_response_fixed (parse : String → Except String Json)
    (now : String) (st : CoState) (contentType bodyText : String)
    (m m' : Json)
    (hct : jsIncludes contentType "application/json" = true)
    (hne : jsTrimEmpty bodyText = false)
    (hp : parse bodyText = Except.ok m)
    (hi : injectTimestamp now m = Except.ok m') :
    handleBroadcast parse now st contentType bodyText
      = (publishParsed st m', successResponse) := by
  simp [handleBroadcast, hct, hne, hp, hi, Except.bind]

/-- Witness for the amended C5 at a concrete publish. -/
theorem c5_success_response_fixed_witness :
    (jsIncludes "application/json" "application/json" = true
      ∧ jsTrimEmpty "x" = false
      ∧ (fun _ : String => (Except.ok (Json.obj [("a", Json.num 1)])
            : Except String Json)) "x"
          = Except.ok (Json.obj [("a", Json.num 1)])
      ∧ injectTimestamp "2026-01-01T00:00:00.000Z" (Json.obj [("a", Json.num 1)])
          = Except.ok (Json.obj [("a", Json.num 1),
              ("timestamp", Json.str "2026-01-01T00:00:00.000Z")]))
    ∧ handleBroadcast (fun _ => Except.ok (Json.obj [("a", Json.num 1)]))
        "2026-01-01T00:00:00.000Z" (initState (Except.ok none))
        "application/json" "x"
      = (publishParsed (initState (Except.ok none))
          (Json.obj [("a", Json.num 1),
            ("timestamp", Json.str "2026-01-01T00:00:00.000Z")]),
        successResponse) :=
  ⟨⟨by decide, by decide, rfl, rfl⟩,
    c5_success_response_fixed _ _ _ _ _ _ _ (by decide) (by decide) rfl rfl⟩

/-- C7 counterexample: a publisher-supplied empty-string timestamp is NOT
preserved. Publishing `{"timestamp": ""}` stores a message whose timestamp
is the coordinator-injected current time, because `!message.timestamp` is
true for the falsy empty string. -/
theorem c7_counterexample :
    (handleBroadcast (fun _ => Except.ok (Json.obj [("timestamp", Json.str "")]))
        "2026-01-01T00:00:00.000Z" (initState (Except.ok none))
        "application/json" "x").1.lastMessages
      = [Json.obj [("timestamp", Json.str "2026-01-01T00:00:00.000Z")]]
    ∧ Json.obj [("timestamp", Json.str "2026-01-01T00:00:00.000Z")]
      ≠ Json.obj [("timestamp", Json.str "")] :=
  ⟨by decide, by decide⟩

/-- C7 (amended): for an object payload, the stored Message keeps the
publisher-supplied timestamp iff that timestamp is truthy; a missing or
falsy timestamp (including the empty string) is replaced with the
coordinator-injected current time. -/
theorem c7_timestamp_truthiness (parse : String → Except String Json)
    (now : String) (st : CoState) (contentType bodyText : String)
    (fields : List (String × Json))
    (hct : jsIncludes contentType "application/json" = true)
    (hne : jsTrimEmpty bodyText = false)
    (hp : parse bodyText = Except.ok (Json.obj fields)) :
    ((∃ v, lookupField fields "timestamp" = some v ∧ truthy v = true) →
      handleBroadcast parse now st contentType bodyText
        = (publishParsed st (Json.obj fields), successResponse))
    ∧ ((∀ v, lookupField fields "timestamp" = some v → truthy v = false) →
      handleBroadcast parse now st contentType bodyText
        = (publishParsed st
            (Json.obj (setField fields "timestamp" (Json.str now))),
          successResponse)) := by
  constructor
  · rintro ⟨v, hv, ht⟩
    simp [handleBroadcast, hct, hne, hp, Except.bind, injectTimestamp, hv, ht]
  · intro hf
    have hmatch : (match lookupField fields "timestamp" with
        | some v => truthy v
        | none => false) = false := by
      cases h : lookupField fields "timestamp" with
      | none => rfl
      | some v => exact hf v h
    simp [handleBroadcast, hct, hne, hp, Except.bind, injectTimestamp, hmatch]

/-- Witness for the amended C7: a truthy timestamp `"T0"` is preserved, and
a falsy (empty-string) timestamp is replaced with the injected time. -/
theorem c7_timestamp_truthiness_witness :
    (jsIncludes "application/json" "application/json" = true
      ∧ jsTrimEmpty "x" = false
      ∧ (∃ v, lookupField [("timestamp", Json.str "T0")] "timestamp" = some v
          ∧ truthy v = true)
      ∧ handleBroadcast (fun _ => Except.ok (Json.obj [("timestamp", Json.str "T0")]))
          "2026-01-01T00:00:00.000Z" (initState (Except.ok none))
          "application/json" "x"
        = (publishParsed (initState (Except.ok none))
            (Json.obj [("timestamp", Json.str "T0")]), successResponse))
    ∧ ((∀ v, lookupField [("timestamp", Json.str "")] "timestamp" = some v →
          truthy v = false)
      ∧ handleBroadcast (fun _ => Except.ok (Json.obj [("timestamp", Json.str "")]))
          "2026-01-01T00:00:00.000Z" (initState (Except.ok none))
          "application/json" "x"
        = (publishParsed (initState (Except.ok none))
            (Json.obj (setField [("timestamp", Json.str "")] "timestamp"
              (Json.str "2026-01-01T00:00:00.000Z"))), successResponse)) :=
  ⟨⟨by decide, by decide, ⟨Json.str "T0", rfl, by decide⟩,
    (c7_timestamp_truthiness _ _ _ _ _ _ (by decide) (by decide) rfl).1
      ⟨Json.str "T0", rfl, by decide⟩⟩,
   ⟨fun v hv => by simp [lookupField] at hv; subst hv; decide,
    (c7_timestamp_truthiness _ _ _ _ _ _ (by decide) (by decide) rfl).2
      (fun v hv => by simp [lookupField] at hv; subst hv; decide)⟩⟩

/-- C10: a JSON-declared Publish whose well-formed body is a top-level
primitive (null, boolean, number, or string — not an object or array) fails:
the timestamp-injection step throws (reading `.timestamp` on `null`, or
strict-mode property creation on a primitive), the catch branch returns the
400 failure response, and the coordinator state is unchanged — nothing is
appended or broadcast. -/
theorem c10_primitive_payload_rejected (parse : String → Except String Json)
    (now : String) (st : CoState) (contentType bodyText : String) (m : Json)
    (hct : jsIncludes contentType "application/json" = true)
    (hne : jsTrimEmpty bodyText = false)
    (hp : parse bodyText = Except.ok m)
    (hprim : primNonObject m = true) :
    ∃ e, injectTimestamp now m = Except.error e
      ∧ handleBroadcast parse now st contentType bodyText
          = (st, errorResponse e) := by
  cases m with
  | null => exact ⟨_, rfl,
      by simp [handleBroadcast, hct, hne, hp, Except.bind, injectTimestamp]⟩
  | bool b => exact ⟨_, rfl,
      by simp [handleBroadcast, hct, hne, hp, Except.bind, injectTimestamp]⟩
  | num n => exact ⟨_, rfl,
      by simp [handleBroadcast, hct, hne, hp, Except.bind, injectTimestamp]⟩
  | str t => exact ⟨_, rfl,
      by simp [handleBroadcast, hct, hne, hp, Except.bind, injectTimestamp]⟩
  | arr xs => simp [primNonObject] at hprim
  | obj fs => simp [primNonObject] at hprim

/-- Witness for C10: publishing the body `42` (a JSON number) fails with the
strict-mode TypeError and leaves the fresh coordinator unchanged. -/
theorem c10_primitive_payload_rejected_witness :
    (jsIncludes "application/json" "application/json" = true
      ∧ jsTrimEmpty "42" = false
      ∧ primNonObject (Json.num 42) = true)
    ∧ ∃ e, injectTimestamp "2026-01-01T00:00:00.000Z" (Json.num 42)
          = Except.error e
        ∧ handleBroadcast (fun _ => Except.ok (Json.num 42))
            "2026-01-01T00:00:00.000Z" (initState (Except.ok none))
            "application/json" "42"
          = (initState (Except.ok none), errorResponse e) :=
  ⟨⟨by decide, by decide, by decide⟩,
    c10_primitive_payload_rejected _ _ _ _ _ _ (by decide) (by decide) rfl
      (by decide)⟩

/-- C6 counterexample: when the initial persistence read rejects, the
subscriber's stream errors (the `start` callback's `await this.ready`
rethrows the rejection), so the load failure IS surfaced to the subscriber
instead of degrading to a silent empty replay. The buffer itself does stay
empty. -/
theorem c6_counterexample :
    (getCh (subscribe (initState (Except.error "storage read failed")) none) 0).errored
        = true
    ∧ (initState (Except.error "storage read failed")).lastMessages = [] :=
  ⟨rfl, rfl⟩

/-- C6 (amended): a rejected initial read leaves the ReplayBuffer empty, but
the rejection propagates through the awaited `ready` promise — the new
subscriber receives the connection chunk and then its stream errors, with no
replay performed. Only a fulfilled read of a missing value degrades to a
successful subscribe with an empty replay history. -/
theorem c6_load_failure_behavior (e : String) :
    ((initState (Except.error e)).lastMessages = []
      ∧ getCh (subscribe (initState (Except.error e)) none) 0
          = { queue := [], delivered := [Chunk.connected], budget := none,
              errored := true })
    ∧ getCh (subscribe (initState (Except.ok none)) none) 0
        = { queue := [], delivered := [Chunk.connected], budget := none,
            errored := false } :=
  ⟨⟨rfl, rfl⟩, rfl⟩

/-- C9 counterexample: `startPeriodicUpdate` is not idempotent. Calling it
while a timer is active installs a second interval and overwrites the stored
handle: after two calls two intervals are live (`[1, 0]`) and only the newer
one is reachable from `updateInterval` — the older is orphaned, not
replaced-and-cancelled. -/
theorem c9_counterexample :
    startPeriodicUpdate (startPeriodicUpdate (initState (Except.ok none)))
        ≠ startPeriodicUpdate (initState (Except.ok none))
    ∧ (startPeriodicUpdate (startPeriodicUpdate (initState (Except.ok none)))).liveTimers
        = [1, 0]
    ∧ (startPeriodicUpdate (initState (Except.ok none))).liveTimers = [0] :=
  ⟨by decide, rfl, rfl⟩

/-- C9 (amended): `stopPeriodicUpdate` is idempotent, but
`startPeriodicUpdate` is not a no-op while a timer is active: every call
unconditionally creates a fresh interval, prepends it to the live set, and
overwrites the stored handle. -/
theorem c9_stop_idempotent_start_not (st : CoState) :
    stopPeriodicUpdate (stopPeriodicUpdate st) = stopPeriodicUpdate st
    ∧ (startPeriodicUpdate st).updateInterval = some st.nextTimer
    ∧ (startPeriodicUpdate st).liveTimers = st.nextTimer :: st.liveTimers := by
  refine ⟨?_, rfl, rfl⟩
  cases hui : st.updateInterval with
  | none => simp [stopPeriodicUpdate, hui]
  | some t => simp [stopPeriodicUpdate, hui]

/-- C3: replay semantics of Subscribe. After `ms` successful broadcasts on a
fresh room, a new Subscribe with a reliable sink delivers to the new channel
the connection chunk, then exactly the stored `lastN 10 ms` messages in
original publish order, then every later broadcast, in order — so for
N ≤ 10 prior broadcasts exactly those N are replayed (third conjunct:
`lastN` is the identity there), all before any post-Subscribe broadcast.
The replay goes to the new channel only: any other channel is untouched by a
Subscribe (second conjunct). -/
theorem c3_replay_order (ms qs : List Json) :
    ((getCh (qs.foldl publishParsed
          (subscribe (ms.foldl publishParsed (initState (Except.ok none))) none))
        (ms.foldl publishParsed (initState (Except.ok none))).nextChan).delivered
      = Chunk.connected ::
          ((lastN MAX_MESSAGES ms).map Chunk.broadcast ++ qs.map Chunk.broadcast))
    ∧ (∀ (st : CoState) (b : Option Nat) (j : Nat), j ≠ st.nextChan →
        getCh (subscribe st b) j = getCh st j)
    ∧ (ms.length ≤ MAX_MESSAGES → lastN MAX_MESSAGES ms = ms) := by
  refine ⟨?_, getCh_subscribe_ne, fun h => lastN_of_length_le h⟩
  have h0 := foldl_publishParsed_no_controllers ms (initState (Except.ok none)) rfl
  have hc1 : (ms.foldl publishParsed (initState (Except.ok none))).controllers = [] := by
    rw [h0]; rfl
  have hch1 : (ms.foldl publishParsed (initState (Except.ok none))).channels = [] := by
    rw [h0]; rfl
  have hl1 : (ms.foldl publishParsed (initState (Except.ok none))).loadFailed = false := by
    rw [h0]; rfl
  have hlm : (ms.foldl publishParsed (initState (Except.ok none))).lastMessages
      = lastN MAX_MESSAGES ms := by
    rw [h0]
    have h2 := foldl_pushBounded MAX_MESSAGES ms ([] : List Json) (by simp)
    simpa [initState] using h2
  have hsub := subscribe_empty hc1 hch1 hl1
  have hqs := @foldl_publishParsed_single
    ((ms.foldl publishParsed (initState (Except.ok none))).nextChan) qs
    (subscribe (ms.foldl publishParsed (initState (Except.ok none))) none)
    (Chunk.connected ::
      (ms.foldl publishParsed (initState (Except.ok none))).lastMessages.map
        Chunk.broadcast)
    (by rw [hsub]) (by rw [hsub])
  rw [getCh, hqs.1]
  simp [findCh, hlm]

/-- Witness for C3 at a concrete trace: one prior broadcast, a subscribe, one
later broadcast; plus the replay-to-new-channel-only and `lastN`-identity
hypotheses discharged at concrete inputs. -/
theorem c3_replay_order_witness :
    ((7 : Nat) ≠ (initState (Except.ok none)).nextChan
      ∧ getCh (subscribe (initState (Except.ok none)) none) 7
          = getCh (initState (Except.ok none)) 7)
    ∧ (([Json.null] : List Json).length ≤ MAX_MESSAGES
      ∧ lastN MAX_MESSAGES [Json.null] = [Json.null])
    ∧ (getCh ([Json.bool true].foldl publishParsed
          (subscribe ([Json.null].foldl publishParsed (initState (Except.ok none)))
            none))
        ([Json.null].foldl publishParsed (initState (Except.ok none))).nextChan).delivered
      = Chunk.connected :: ((lastN MAX_MESSAGES [Json.null]).map Chunk.broadcast
          ++ [Json.bool true].map Chunk.broadcast) :=
  ⟨⟨by decide, (c3_replay_order [Json.null] [Json.bool true]).2.1
      (initState (Except.ok none)) none 7 (by decide)⟩,
   ⟨by decide, (c3_replay_order [Json.null] [Json.bool true]).2.2 (by decide)⟩,
   (c3_replay_order [Json.null] [Json.bool true]).1⟩
